import Mathlib

/-!
Verification of the chess-llm turn-orchestration core.

Shallow embedding of `src/chess_llm/game.py` (`ChessGame`) and
`src/chess_llm/async_orchestrator.py` (`AsyncGameOrchestrator.play_turn`,
`AsyncGameOrchestrator._get_winner`).  The rules engine (the python-chess
`chess.Board`) and the LLM agents are external collaborators, specified only
at their interface boundary; they are modelled as an abstract engine
structure and as an oracle list of agent invocation results respectively.
-/

namespace ChessLLM

/-- A side of the game, the values of Python strings "white" / "black". -/
inductive Player : Type
  | white
  | black
deriving DecidableEq, Repr

/-- The opposite side. -/
def Player.other : Player → Player
  | .white => .black
  | .black => .white

/-- Modelled from the spec: the out-of-scope rules engine (python-chess
`chess.Board` and `chess.Move`), which the spec fixes only at its interface
boundary: legal-move listing, UCI parsing and printing, move application,
null-move turn passing, terminal-condition predicates, side to move, and the
move-stack pop used by undo.  `fromUci s = none` models
`chess.Move.from_uci` raising `ValueError`.  The two laws record the
documented python-chess round-trip (a legal move prints to a UCI string that
parses back to itself) and that passing the turn flips the side to move. -/
structure ChessEngine : Type 1 where
  Board : Type
  Move : Type
  initBoard : Board
  legal : Board → List Move
  uciOf : Move → String
  fromUci : String → Option Move
  push : Board → Move → Board
  pushPass : Board → Board
  popBoard : Board → Board
  boardOver : Board → Bool
  isCheckmate : Board → Bool
  isStalemate : Board → Bool
  insufficientMaterial : Board → Bool
  seventyfiveMoves : Board → Bool
  fivefoldRepetition : Board → Bool
  turnWhite : Board → Bool
  fen : Board → String
  beqMove : Move → Move → Bool
  beqMove_iff : ∀ a b : Move, beqMove a b = true ↔ a = b
  fromUci_uciOf : ∀ (b : Board) (m : Move), m ∈ legal b → fromUci (uciOf m) = some m
  pushPass_turn : ∀ b : Board, turnWhite (pushPass b) = !turnWhite b

variable (e : ChessEngine)

/-- State of `ChessGame` (game.py lines 12-18) plus the `draw_requested`
attribute that `AsyncGameOrchestrator` attaches dynamically; the code guards
every read of it with `hasattr`, so the initially missing attribute is
modelled as the value `false`.  `resigned` is `None` or a player name;
`game_history` stores the applied moves as UCI strings and `move_times` the
per-move times. -/
structure ChessGame where
  board : e.Board
  game_history : List String
  move_times : List ℚ
  resigned : Option Player
  draw_accepted : Bool
  draw_requested : Bool

/-- ChessGame.__init__ (game.py lines 12-18): fresh board, empty histories,
no resignation, no accepted draw; `draw_requested` starts absent. -/
def initGame : ChessGame e :=
  { board := e.initBoard
    game_history := []
    move_times := []
    resigned := none
    draw_accepted := false
    draw_requested := false }

variable {e}

/-- ChessGame.is_game_over (game.py lines 28-30). -/
def is_game_over (g : ChessGame e) : Bool :=
  e.boardOver g.board || g.resigned.isSome || g.draw_accepted

/-- ChessGame.get_game_result (game.py lines 32-48). -/
def get_game_result (g : ChessGame e) : Option String :=
  if g.resigned.isSome then some "resignation"
  else if g.draw_accepted then some "draw_accepted"
  else if e.isCheckmate g.board then some "checkmate"
  else if e.isStalemate g.board then some "stalemate"
  else if e.insufficientMaterial g.board then some "insufficient_material"
  else if e.seventyfiveMoves g.board then some "seventyfive_moves"
  else if e.fivefoldRepetition g.board then some "fivefold_repetition"
  else none

/-- ChessGame.get_legal_moves (game.py lines 50-52): UCI strings of the legal
moves of the current position. -/
def get_legal_moves (g : ChessGame e) : List String :=
  (e.legal g.board).map e.uciOf

/-- ChessGame.make_move (game.py lines 54-74).  Parses the UCI string (a
parse failure is the caught `ValueError`, returning `False`), checks the
parsed move against `board.legal_moves`, and on success pushes the move and
appends to both `game_history` and `move_times`.  Returns the success flag
together with the (possibly unchanged) state. -/
def make_move (g : ChessGame e) (move_uci : String) (move_time : ℚ) :
    Bool × ChessGame e :=
  match e.fromUci move_uci with
  | none => (false, g)
  | some m =>
    if (e.legal g.board).any (fun x => e.beqMove x m) then
      (true,
        { g with
          board := e.push g.board m
          game_history := g.game_history ++ [move_uci]
          move_times := g.move_times ++ [move_time] })
    else (false, g)

/-- ChessGame.get_current_player (game.py lines 76-78). -/
def get_current_player (g : ChessGame e) : Player :=
  if e.turnWhite g.board then .white else .black

/-- The dictionary returned by ChessGame.get_game_state (game.py lines
80-90). -/
structure GameStateDict where
  fen : String
  current_player : Player
  legal_moves : List String
  game_over : Bool
  result : Option String
  move_history : List String
  move_count : Nat

/-- ChessGame.get_game_state (game.py lines 80-90). -/
def get_game_state (g : ChessGame e) : GameStateDict :=
  { fen := e.fen g.board
    current_player := get_current_player g
    legal_moves := get_legal_moves g
    game_over := is_game_over g
    result := if is_game_over g then get_game_result g else none
    move_history := g.game_history
    move_count := g.game_history.length }

/-- ChessGame.undo_move (game.py lines 92-99): when the move history is
non-empty, pops the board and removes the last entry of both
`game_history` and `move_times`. -/
def undo_move (g : ChessGame e) : Bool × ChessGame e :=
  if g.game_history.length > 0 then
    (true,
      { g with
        board := e.popBoard g.board
        game_history := g.game_history.dropLast
        move_times := g.move_times.dropLast })
  else (false, g)

/-- ChessGame.reset_game (game.py lines 101-107).  Resets the board and
clears histories and the `resigned` / `draw_accepted` flags; the
dynamically attached `draw_requested` attribute is not touched there. -/
def reset_game (g : ChessGame e) : ChessGame e :=
  { g with
    board := e.initBoard
    game_history := []
    move_times := []
    resigned := none
    draw_accepted := false }

/-- AsyncGameOrchestrator._get_winner (async_orchestrator.py lines 387-400):
`None` unless the game is over; the side that just moved on "checkmate"; a
draw on the four board drawing conditions; `None` for any other result. -/
def get_winner (g : ChessGame e) : Option String :=
  if !(is_game_over g) then none
  else
    let result := get_game_result g
    if result = some "checkmate" then
      some (if get_current_player g = Player.white then "black" else "white")
    else if result = some "stalemate" ∨ result = some "insufficient_material" ∨
        result = some "seventyfive_moves" ∨ result = some "fivefold_repetition" then
      some "draw"
    else none

/-! Response parsing helpers of AsyncGameOrchestrator.play_turn.  The
Python string methods `strip`, `upper`, `lower` and argumentless `split`
are modelled directly over the character list of the string (for the ASCII
alphabet these agree with Python). -/

/-- Python `str.upper()`: uppercase every character. -/
def strUpper (s : String) : String :=
  String.mk (s.data.map Char.toUpper)

/-- Python `str.lower()`: lowercase every character. -/
def strLower (s : String) : String :=
  String.mk (s.data.map Char.toLower)

/-- Python `str.strip()`: remove leading and trailing whitespace. -/
def strStrip (s : String) : String :=
  String.mk
    (((s.data.dropWhile Char.isWhitespace).reverse.dropWhile Char.isWhitespace).reverse)

/-- Helper for Python argumentless `str.split()`: accumulate the current
token (reversed) and emit maximal runs of non-whitespace characters. -/
def splitWsAux : List Char → List Char → List String
  | [], acc => if acc.isEmpty then [] else [String.mk acc.reverse]
  | c :: cs, acc =>
    if c.isWhitespace then
      if acc.isEmpty then splitWsAux cs [] else String.mk acc.reverse :: splitWsAux cs []
    else splitWsAux cs (c :: acc)

/-- Python argumentless `str.split()`: whitespace-delimited tokens, empty
strings discarded. -/
def splitWs (s : String) : List String :=
  splitWsAux s.data []

/-- Line 197 of async_orchestrator.py: `response.strip().upper()`. -/
def respText (response : String) : String :=
  strUpper (strStrip response)

/-- The Python idiom `s.split()[0] if s else ""` (line 234): the first
whitespace-delimited token, or the empty string when there is none. -/
def firstToken (s : String) : String :=
  match splitWs s with
  | [] => ""
  | t :: _ => t

/-- Line 234 of async_orchestrator.py applied to the already stripped and
uppercased `response_text`: first whitespace-delimited token, lowercased. -/
def extractMove (response_text : String) : String :=
  strLower (firstToken response_text)

/-- The typed action the response dispatch of play_turn distinguishes
(async_orchestrator.py lines 197-237). -/
inductive Action : Type
  | offerDraw
  | resign
  | acceptDraw
  | refuseDraw
  | moveCandidate (move : String)
deriving DecidableEq, Repr

/-- The response interpretation performed inline by play_turn
(async_orchestrator.py lines 197-237): keyword dispatch on the stripped,
uppercased response — with the two draw responses additionally conditioned
on the `draw_requested` flag captured at the start of the turn — and
otherwise extraction of the first token as a move candidate. -/
def interpretResponse (draw_requested : Bool) (response : String) : Action :=
  let response_text := respText response
  if response_text = "REQUEST_DRAW" then .offerDraw
  else if response_text = "RESIGN" then .resign
  else if response_text = "DRAW_ACCEPTED" ∧ draw_requested = true then .acceptDraw
  else if response_text = "DRAW_REFUSED" ∧ draw_requested = true then .refuseDraw
  else .moveCandidate (extractMove response_text)

/-! The orchestrator. -/

/-- One agent invocation observed at the AgentHandle boundary (the
`chess_llm.agents` module is absent from the sources; the spec fixes the
capability as returning a raw text and a self-reported latency, or failing).
`ok response latency elapsed` carries in addition the wall-clock reading
`time.time() - orchestrator_start` that play_turn takes at line 200 right
after this invocation returns; `err` models `send_message` raising. -/
inductive AgentEvent : Type
  | ok (response : String) (latency : ℚ) (elapsed : ℚ)
  | err
deriving DecidableEq, Repr

/-- The dictionaries play_turn returns (async_orchestrator.py lines 210,
217, 224, 263-268, 281, 290), one constructor per distinct shape. -/
inductive TurnResult : Type
  | drawOffer (player : Player) (response_time : ℚ)
  | resignedBy (player : Player) (response_time : ℚ)
  | drawAccepted (player : Player) (response_time : ℚ)
  | moveApplied (player : Player) (move : String) (response_time : ℚ) (board_fen : String)
  | maxRetriesError (player : Player)
  | exceptionError (player : Player)
deriving DecidableEq, Repr

/-- Mutable state of AsyncGameOrchestrator (async_orchestrator.py lines
21-33) relevant to the turn loop: the game, the `move_times` dictionary
(split into its "white", "black" and "orchestrator" entries) and the
`is_running` / `is_paused` lifecycle flags. -/
structure OrchState (e : ChessEngine) where
  game : ChessGame e
  white_times : List ℚ
  black_times : List ℚ
  orchestrator_time : ℚ
  is_running : Bool
  is_paused : Bool

/-- AsyncGameOrchestrator.__init__ (async_orchestrator.py lines 21-33):
fresh game, `move_times = ("white" [], "black" [], "orchestrator" 0)`, not
running, not paused. -/
def initOrch (e : ChessEngine) : OrchState e :=
  { game := initGame e
    white_times := []
    black_times := []
    orchestrator_time := 0
    is_running := false
    is_paused := false }

/-- The state right after play_game sets `is_running = True`
(async_orchestrator.py line 298), before the first turn. -/
def startOrch (e : ChessEngine) : OrchState e :=
  { initOrch e with is_running := true }

/-- Line 240 of async_orchestrator.py:
`self.move_times[current_player].append(response_time)`. -/
def record_time (o : OrchState e) (p : Player) (t : ℚ) : OrchState e :=
  match p with
  | .white => { o with white_times := o.white_times ++ [t] }
  | .black => { o with black_times := o.black_times ++ [t] }

/-- Line 187 of async_orchestrator.py: `max_retries = 3`. -/
def max_retries : Nat := 3

/-- The retry loop of play_turn (async_orchestrator.py lines 188-290),
driven by the oracle list of agent invocation results.  `fuel` is the number
of iterations of `for attempt in range(max_retries)` still to run (so the
final attempt is `fuel = 1`, and `attempt < max_retries - 1` is `fuel > 1`);
`player`, `legalStrs` and `dr` are `current_player`,
the legal_moves entry of game_state, and draw_requested, all captured before
the loop (lines 167-179); `n` counts the agent invocations performed so far
during this turn, including the one inside `_send_invalid_move_prompt`
(line 145), whose returned response the code stores in `response` and then
overwrites at line 194 without ever reading it.  The result is `none` when
the oracle list runs out before the code would return, and otherwise the
value play_turn returns (with `none` for the Python `None` that falling off
the loop produces), the final state, and the invocation count. -/
def turn_loop (e : ChessEngine) (player : Player) (legalStrs : List String)
    (dr : Bool) :
    Nat → OrchState e → List AgentEvent → Nat →
    Option (Option TurnResult × OrchState e × Nat)
  | 0, o, _, n => some (none, o, n)
  | fuel + 1, o, evs, n =>
    match evs with
    | [] => none
    | AgentEvent.err :: evs =>
      -- lines 283-290: the except branch; backoff and retry unless this was
      -- the final attempt, in which case the exception error dict is returned
      if fuel = 0 then some (some (TurnResult.exceptionError player), o, n + 1)
      else turn_loop e player legalStrs dr fuel o evs (n + 1)
    | AgentEvent.ok response latency elapsed :: evs =>
      -- lines 194-201: parse the response and accumulate orchestrator time
      let response_text := respText response
      let o' := { o with orchestrator_time := o.orchestrator_time + (elapsed - latency) }
      if response_text = "REQUEST_DRAW" then
        -- lines 204-210: record the offer, pass the turn, return
        some (some (TurnResult.drawOffer player latency),
          { o' with game := { o'.game with
              draw_requested := true
              board := e.pushPass o'.game.board } },
          n + 1)
      else if response_text = "RESIGN" then
        -- lines 212-217
        some (some (TurnResult.resignedBy player latency),
          { o' with
            game := { o'.game with resigned := some player }
            is_running := false },
          n + 1)
      else if response_text = "DRAW_ACCEPTED" ∧ dr = true then
        -- lines 219-224
        some (some (TurnResult.drawAccepted player latency),
          { o' with
            game := { o'.game with draw_accepted := true }
            is_running := false },
          n + 1)
      else if response_text = "DRAW_REFUSED" ∧ dr = true then
        -- lines 226-231: clear the offer and continue the loop
        turn_loop e player legalStrs dr fuel
          { o' with game := { o'.game with draw_requested := false } } evs (n + 1)
      else
        -- lines 233-281
        let move := extractMove response_text
        if move ∈ legalStrs then
          match make_move o'.game move latency with
          | (true, g') =>
            -- lines 238-268: record latency, clear the draw offer, return
            some (some (TurnResult.moveApplied player move latency (e.fen g'.board)),
              record_time { o' with game := { g' with draw_requested := false } }
                player latency,
              n + 1)
          | (false, _) =>
            -- `if success:` has no else branch: fall through to the next
            -- loop iteration without a further agent call
            turn_loop e player legalStrs dr fuel o' evs (n + 1)
        else
          -- lines 269-281: invalid move
          if fuel = 0 then some (some (TurnResult.maxRetriesError player), o', n + 1)
          else
            -- line 275: `_send_invalid_move_prompt` performs one more agent
            -- invocation; its result (or the exception it raises, which the
            -- except branch turns into the same retry) is never used, because
            -- line 194 overwrites `response` at the next iteration
            match evs with
            | [] => none
            | _ :: evs' => turn_loop e player legalStrs dr fuel o' evs' (n + 2)

/-- AsyncGameOrchestrator.play_turn (async_orchestrator.py lines 148-290).
Returns `some (result, final state, agent invocation count)`, where `result
= none` is the Python `None`; the outer `none` stands for a run the
sequential model cannot finish: either the pause loop of lines 158-161
(which, with no concurrent `resume`, never exits while `is_running` holds)
or an exhausted oracle list. -/
def play_turn (e : ChessEngine) (o : OrchState e) (evs : List AgentEvent) :
    Option (Option TurnResult × OrchState e × Nat) :=
  if is_game_over o.game || !o.is_running then some (none, o, 0)
  else if o.is_paused then none
  else
    let current_player := get_current_player o.game
    let game_state := get_game_state o.game
    let dr := o.game.draw_requested
    turn_loop e current_player game_state.legal_moves dr max_retries o evs 0

/-! A small concrete rules engine used to run the model on closed inputs.
Boards record the side to move and the stack of pushed moves; one fixed
move "e2e4" is always legal.  It satisfies the two interface laws. -/

/-- Concrete instance of the engine interface for closed evaluations. -/
def toyEngine : ChessEngine where
  Board := Bool × List String
  Move := String
  initBoard := (true, [])
  legal := fun _ => ["e2e4"]
  uciOf := fun m => m
  fromUci := fun s => if s = "e2e4" then some "e2e4" else none
  push := fun b m => (!b.1, b.2 ++ [m])
  pushPass := fun b => (!b.1, b.2)
  popBoard := fun b => (!b.1, b.2.dropLast)
  boardOver := fun _ => false
  isCheckmate := fun _ => false
  isStalemate := fun _ => false
  insufficientMaterial := fun _ => false
  seventyfiveMoves := fun _ => false
  fivefoldRepetition := fun _ => false
  turnWhite := fun b => b.1
  fen := fun _ => "toy"
  beqMove := fun a b => a == b
  beqMove_iff := by intro a b; simp
  fromUci_uciOf := by intro b m hm; simp at hm; simp [hm]
  pushPass_turn := by intro b; rfl

/-- States of `ChessGame` reachable from a fresh game through the three
mutating public operations `make_move`, `undo_move` and `reset_game`. -/
inductive Reachable (e : ChessEngine) : ChessGame e → Prop
  | init : Reachable e (initGame e)
  | step_make (g : ChessGame e) (s : String) (t : ℚ) :
      Reachable e g → Reachable e (make_move g s t).2
  | step_undo (g : ChessGame e) :
      Reachable e g → Reachable e (undo_move g).2
  | step_reset (g : ChessGame e) :
      Reachable e g → Reachable e (reset_game g)

/-! Theorems for the frozen claims. -/

/-- C10: for every input string, `make_move` either applies a legal move —
the string parses to a move of the legal-move set, which is pushed while the
history and the time list are each extended by one entry — and returns
`True`, or it returns `False` with the game state completely unchanged
(including when the string fails UCI parsing, whose `ValueError` is caught
internally). -/
theorem C10_make_move_total (e : ChessEngine) (g : ChessGame e) (s : String) (t : ℚ) :
    ((make_move g s t).1 = true ∧
      ∃ m, e.fromUci s = some m ∧ m ∈ e.legal g.board ∧
        (make_move g s t).2 =
          { g with
            board := e.push g.board m
            game_history := g.game_history ++ [s]
            move_times := g.move_times ++ [t] }) ∨
    ((make_move g s t).1 = false ∧ (make_move g s t).2 = g) := by
  unfold make_move
  cases hp : e.fromUci s with
  | none => exact Or.inr ⟨rfl, rfl⟩
  | some m =>
    by_cases hmem : (e.legal g.board).any (fun x => e.beqMove x m) = true
    · refine Or.inl ⟨by simp [hmem], m, rfl, ?_, by simp [hmem]⟩
      rcases List.any_eq_true.mp hmem with ⟨x, hx, hbeq⟩
      rcases (e.beqMove_iff x m).mp hbeq with rfl
      exact hx
    · simp only [Bool.not_eq_true] at hmem
      exact Or.inr ⟨by simp [hmem], by simp [hmem]⟩

/-- C9: every state reachable from a fresh game through `make_move`,
`undo_move` and `reset_game` has as many recorded move times as applied
moves: each operation appends to both lists, removes the last entry of
both, or clears both. -/
theorem C9_history_times_invariant (e : ChessEngine) (g : ChessGame e)
    (h : Reachable e g) : g.game_history.length = g.move_times.length := by
  induction h with
  | init => rfl
  | step_make g s t _ ih =>
    rcases C10_make_move_total e g s t with ⟨_, m, _, _, h2⟩ | ⟨_, h2⟩ <;>
      simp [h2, ih]
  | step_undo g _ ih =>
    unfold undo_move
    split <;> simp [List.length_dropLast, ih]
  | step_reset g _ _ => rfl

/-- C9 witness: the invariant, instantiated at the state obtained from a
fresh toy game by one applied move, one failed move and one undo. -/
theorem C9_invariant_witness :
    ((undo_move (make_move (make_move (initGame toyEngine) "e2e4" 1).2 "xx" 2).2).2).game_history.length =
      ((undo_move (make_move (make_move (initGame toyEngine) "e2e4" 1).2 "xx" 2).2).2).move_times.length :=
  C9_history_times_invariant toyEngine _
    (Reachable.step_undo _ (Reachable.step_make _ "xx" 2
      (Reachable.step_make _ "e2e4" 1 Reachable.init)))

/-- C8 counterexample: a response that is exactly the reserved keyword
DRAW_ACCEPTED is nevertheless treated as a move candidate when no draw
offer is pending — the claim says keyword interpretation never treats such
a text as a move candidate. -/
theorem C8_accept_without_offer :
    respText "DRAW_ACCEPTED" = "DRAW_ACCEPTED" ∧
    interpretResponse false "DRAW_ACCEPTED" = Action.moveCandidate "draw_accepted" := by
  exact ⟨by decide, by decide⟩

/-- C8 (amended): RESIGN and REQUEST_DRAW are matched case-insensitively
(after stripping) and always yield their non-move action; DRAW_ACCEPTED and
DRAW_REFUSED do so only while a draw offer is pending and are otherwise
treated as move candidates; every other response has its first
whitespace-delimited token (lowercased) taken as the move identifier. -/
theorem C8_keyword_interpretation (dr : Bool) (resp : String) :
    (respText resp = "REQUEST_DRAW" → interpretResponse dr resp = Action.offerDraw) ∧
    (respText resp = "RESIGN" → interpretResponse dr resp = Action.resign) ∧
    (respText resp = "DRAW_ACCEPTED" →
      interpretResponse dr resp =
        if dr then Action.acceptDraw else Action.moveCandidate "draw_accepted") ∧
    (respText resp = "DRAW_REFUSED" →
      interpretResponse dr resp =
        if dr then Action.refuseDraw else Action.moveCandidate "draw_refused") ∧
    (respText resp ≠ "REQUEST_DRAW" → respText resp ≠ "RESIGN" →
      respText resp ≠ "DRAW_ACCEPTED" → respText resp ≠ "DRAW_REFUSED" →
      interpretResponse dr resp = Action.moveCandidate (extractMove (respText resp))) := by
  unfold interpretResponse
  refine ⟨fun h => by simp [h], fun h => by simp [h], fun h => ?_, fun h => ?_, ?_⟩
  · cases dr <;> simp [h, extractMove, firstToken, splitWs, splitWsAux, strLower]
  · cases dr <;> simp [h, extractMove, firstToken, splitWs, splitWsAux, strLower]
  · intro h1 h2 h3 h4
    simp [h1, h2, h3, h4]

/-- C8 witness: the amended interpretation at concrete inputs — a
lower-case keyword with surrounding whitespace resolves to the Resign
action. -/
theorem C8_keyword_witness :
    interpretResponse false " resign " = Action.resign :=
  (C8_keyword_interpretation false " resign ").2.1 (by decide)

/-- C1 (code evaluation at the failing input): a fresh running game whose
agent answers "xyz123" to every invocation.  With an oracle of only
`max_retries = 3` invocation results the model runs out of oracle input
(the code demands a fourth agent call), and the full run performs five
agent invocations — `send_message` at each of the three loop iterations
plus the one inside `_send_invalid_move_prompt` after each of the first two
failures — before returning the max-retries error dict with the move
history unchanged.  The claim asserts exactly three invocations. -/
theorem C1_five_invocations :
    max_retries = 3 ∧
    play_turn toyEngine (startOrch toyEngine)
      (List.replicate 3 (AgentEvent.ok "xyz123" 1 1)) = none ∧
    (play_turn toyEngine (startOrch toyEngine)
        (List.replicate 5 (AgentEvent.ok "xyz123" 1 1))).map
      (fun r => (r.1, r.2.1.game.game_history, r.2.2)) =
      some (some (TurnResult.maxRetriesError Player.white), [], 5) :=
  ⟨rfl, rfl, rfl⟩

/-- C3 (code evaluation at the failing input): with a draw offer pending,
an agent that answers DRAW_REFUSED on every attempt makes the final
final continue fall off the retry loop, so play_turn returns the
Python `None` — the sentinel its docstring reserves for a finished game —
although the game is not over and the orchestrator is still running. -/
theorem C3_none_on_running_game :
    (play_turn toyEngine
        { startOrch toyEngine with
          game := { initGame toyEngine with draw_requested := true } }
        (List.replicate 3 (AgentEvent.ok "DRAW_REFUSED" 1 1))).map
      (fun r => (r.1, r.2.1.is_running, is_game_over r.2.1.game, r.2.2)) =
      some (none, true, false, 3) :=
  rfl

/-- Helper: `make_move` succeeds on the UCI string of a legal move and
produces exactly the pushed-and-appended state. -/
theorem make_move_of_mem (e : ChessEngine) (g : ChessGame e) (mv : e.Move)
    (t : ℚ) (hmv : mv ∈ e.legal g.board) :
    make_move g (e.uciOf mv) t =
      (true,
        { g with
          board := e.push g.board mv
          game_history := g.game_history ++ [e.uciOf mv]
          move_times := g.move_times ++ [t] }) := by
  have hany : ((e.legal g.board).any fun x => e.beqMove x mv) = true :=
    List.any_eq_true.mpr ⟨mv, hmv, (e.beqMove_iff mv mv).mpr rfl⟩
  unfold make_move
  rw [e.fromUci_uciOf g.board mv hmv]
  simp [hany]

/-- C6: when the agent responds REQUEST_DRAW (on a running, non-terminal,
unpaused turn), play_turn returns the draw-offer outcome for the side to
move after one agent invocation, sets the pending-draw flag, replaces the
board by its null-move pass — so the side to move flips to the opponent —
and leaves the move history untouched. -/
theorem C6_offer_draw_passes_turn (e : ChessEngine) (o : OrchState e)
    (resp : String) (lat el : ℚ) (rest : List AgentEvent)
    (hrun : o.is_running = true) (hpause : o.is_paused = false)
    (hover : is_game_over o.game = false)
    (hreq : respText resp = "REQUEST_DRAW") :
    ∃ o' : OrchState e,
      play_turn e o (AgentEvent.ok resp lat el :: rest) =
        some (some (TurnResult.drawOffer (get_current_player o.game) lat), o', 1) ∧
      o'.game.draw_requested = true ∧
      o'.game.board = e.pushPass o.game.board ∧
      o'.game.game_history = o.game.game_history ∧
      get_current_player o'.game = (get_current_player o.game).other := by
  refine ⟨{ o with
      orchestrator_time := o.orchestrator_time + (el - lat)
      game := { o.game with
        draw_requested := true
        board := e.pushPass o.game.board } }, ?_, rfl, rfl, rfl, ?_⟩
  · simp [play_turn, turn_loop, max_retries, hover, hrun, hpause, hreq]
  · show (if e.turnWhite (e.pushPass o.game.board) then Player.white else Player.black) = _
    rw [e.pushPass_turn]
    unfold get_current_player
    cases e.turnWhite o.game.board <;> simp [Player.other]

/-- C6 witness: the draw-offer behaviour at a concrete input. -/
theorem C6_offer_witness :
    ∃ o' : OrchState toyEngine,
      play_turn toyEngine (startOrch toyEngine)
        [AgentEvent.ok " request_draw " 1 1] =
        some (some (TurnResult.drawOffer
          (get_current_player (startOrch toyEngine).game) 1), o', 1) ∧
      o'.game.draw_requested = true ∧
      o'.game.board = toyEngine.pushPass (startOrch toyEngine).game.board ∧
      o'.game.game_history = (startOrch toyEngine).game.game_history ∧
      get_current_player o'.game =
        (get_current_player (startOrch toyEngine).game).other :=
  C6_offer_draw_passes_turn toyEngine (startOrch toyEngine) " request_draw " 1 1 []
    rfl rfl rfl (by decide)

/-- C7: a legal move returned by the agent on the first attempt is applied:
play_turn performs a single agent invocation and returns the move-applied
outcome for the side to move, the move history grows by exactly that move,
and the pending-draw flag ends cleared. -/
theorem C7_first_attempt_move (e : ChessEngine) (o : OrchState e)
    (m : String) (lat el : ℚ) (rest : List AgentEvent)
    (hrun : o.is_running = true) (hpause : o.is_paused = false)
    (hover : is_game_over o.game = false)
    (hm : m ∈ get_legal_moves o.game)
    (hex : extractMove (respText m) = m)
    (h1 : respText m ≠ "REQUEST_DRAW") (h2 : respText m ≠ "RESIGN")
    (h3 : respText m ≠ "DRAW_ACCEPTED") (h4 : respText m ≠ "DRAW_REFUSED") :
    ∃ o' : OrchState e,
      play_turn e o (AgentEvent.ok m lat el :: rest) =
        some (some (TurnResult.moveApplied (get_current_player o.game) m lat
          (e.fen o'.game.board)), o', 1) ∧
      o'.game.game_history = o.game.game_history ++ [m] ∧
      o'.game.draw_requested = false := by
  rcases List.mem_map.mp hm with ⟨mv, hmv, rfl⟩
  refine ⟨record_time { o with
      orchestrator_time := o.orchestrator_time + (el - lat)
      game := { o.game with
        board := e.push o.game.board mv
        game_history := o.game.game_history ++ [e.uciOf mv]
        move_times := o.game.move_times ++ [lat]
        draw_requested := false } } (get_current_player o.game) lat, ?_, ?_, ?_⟩
  · have hmem : e.uciOf mv ∈ (get_game_state o.game).legal_moves := hm
    have hmk := make_move_of_mem e o.game mv lat hmv
    cases hcp : get_current_player o.game <;>
      simp [play_turn, turn_loop, max_retries, hover, hrun, hpause, h1, h2, h3, h4,
        hex, hmem, hmk, record_time, hcp]
  · cases hcp : get_current_player o.game <;> simp [record_time, hcp]
  · cases hcp : get_current_player o.game <;> simp [record_time, hcp]

/-- C7 witness: the first-attempt legal move "e2e4" at a concrete fresh
game. -/
theorem C7_first_attempt_witness :
    ∃ o' : OrchState toyEngine,
      play_turn toyEngine (startOrch toyEngine) [AgentEvent.ok "e2e4" 1 1] =
        some (some (TurnResult.moveApplied
          (get_current_player (startOrch toyEngine).game) "e2e4" 1
          (toyEngine.fen o'.game.board)), o', 1) ∧
      o'.game.game_history = (startOrch toyEngine).game.game_history ++ ["e2e4"] ∧
      o'.game.draw_requested = false :=
  C7_first_attempt_move toyEngine (startOrch toyEngine) "e2e4" 1 1 []
    rfl rfl rfl (by decide) (by decide) (by decide) (by decide) (by decide) (by decide)

/-- C2 (code evaluation at the failing inputs): with a resignation
recorded, and likewise with an accepted draw, the game counts as over, yet
winner determination returns `None` — the claim says the winner must
resolve to the opposing side (respectively to a draw). -/
theorem C2_winner_none_on_resignation :
    (is_game_over { initGame toyEngine with resigned := some Player.white } = true ∧
      get_winner { initGame toyEngine with resigned := some Player.white } = none) ∧
    (is_game_over { initGame toyEngine with draw_accepted := true } = true ∧
      get_winner { initGame toyEngine with draw_accepted := true } = none) :=
  ⟨⟨rfl, rfl⟩, ⟨rfl, rfl⟩⟩

/-- C4: with a draw offer pending, an agent answering DRAW_REFUSED has the
pending-offer flag cleared and the same side re-prompted inside the same
turn — a second agent invocation — without the move history being touched;
a legal move in that second response is then applied for that same side,
the whole exchange producing a single move-applied outcome whose history
extension is exactly that move. -/
theorem C4_refuse_then_move (e : ChessEngine) (o : OrchState e)
    (r1 m : String) (lat1 el1 lat2 el2 : ℚ) (rest : List AgentEvent)
    (hrun : o.is_running = true) (hpause : o.is_paused = false)
    (hover : is_game_over o.game = false)
    (hdr : o.game.draw_requested = true)
    (hr1 : respText r1 = "DRAW_REFUSED")
    (hm : m ∈ get_legal_moves o.game)
    (hex : extractMove (respText m) = m)
    (h1 : respText m ≠ "REQUEST_DRAW") (h2 : respText m ≠ "RESIGN")
    (h3 : respText m ≠ "DRAW_ACCEPTED") (h4 : respText m ≠ "DRAW_REFUSED") :
    ∃ o' : OrchState e,
      play_turn e o (AgentEvent.ok r1 lat1 el1 :: AgentEvent.ok m lat2 el2 :: rest) =
        some (some (TurnResult.moveApplied (get_current_player o.game) m lat2
          (e.fen o'.game.board)), o', 2) ∧
      o'.game.game_history = o.game.game_history ++ [m] ∧
      o'.game.draw_requested = false := by
  rcases List.mem_map.mp hm with ⟨mv, hmv, rfl⟩
  refine ⟨record_time { o with
      orchestrator_time := o.orchestrator_time + (el1 - lat1) + (el2 - lat2)
      game := { o.game with
        board := e.push o.game.board mv
        game_history := o.game.game_history ++ [e.uciOf mv]
        move_times := o.game.move_times ++ [lat2]
        draw_requested := false } } (get_current_player o.game) lat2, ?_, ?_, ?_⟩
  · have hmem : e.uciOf mv ∈ (get_game_state o.game).legal_moves := hm
    have hmk := make_move_of_mem e { o.game with draw_requested := false } mv lat2
      (by simpa using hmv)
    cases hcp : get_current_player o.game <;>
      simp [play_turn, turn_loop, max_retries, hover, hrun, hpause, hdr, hr1,
        h1, h2, h3, h4, hex, hmem, hmk, record_time, hcp]
  · cases hcp : get_current_player o.game <;> simp [record_time, hcp]
  · cases hcp : get_current_player o.game <;> simp [record_time, hcp]

/-- C4 witness: the refuse-then-move exchange at a concrete game with a
pending draw offer. -/
theorem C4_refuse_witness :
    ∃ o' : OrchState toyEngine,
      play_turn toyEngine
        { startOrch toyEngine with
          game := { initGame toyEngine with draw_requested := true } }
        [AgentEvent.ok "DRAW_REFUSED" 1 1, AgentEvent.ok "e2e4" 2 2] =
        some (some (TurnResult.moveApplied
          (get_current_player
            ({ startOrch toyEngine with
              game := { initGame toyEngine with draw_requested := true } } :
                OrchState toyEngine).game) "e2e4" 2
          (toyEngine.fen o'.game.board)), o', 2) ∧
      o'.game.game_history =
        ({ startOrch toyEngine with
          game := { initGame toyEngine with draw_requested := true } } :
            OrchState toyEngine).game.game_history ++ ["e2e4"] ∧
      o'.game.draw_requested = false :=
  C4_refuse_then_move toyEngine _ "DRAW_REFUSED" "e2e4" 1 1 2 2 []
    rfl rfl rfl rfl (by decide) (by decide) (by decide) (by decide) (by decide)
    (by decide) (by decide)

/-- Helper for C5: across any completed run of the retry loop, the per-side
latency lists are only ever extended, and the orchestrator-overhead scalar
does not decrease provided every reported latency is bounded by the
wall-clock reading taken after its invocation. -/
theorem turn_loop_extends (e : ChessEngine) (player : Player)
    (legalStrs : List String) (dr : Bool) (fuel : Nat) :
    ∀ (o : OrchState e) (evs : List AgentEvent) (n : Nat)
      (r : Option TurnResult) (o' : OrchState e) (n' : Nat),
      turn_loop e player legalStrs dr fuel o evs n = some (r, o', n') →
      (∀ resp lat el, AgentEvent.ok resp lat el ∈ evs → lat ≤ el) →
      (∃ l, o'.white_times = o.white_times ++ l) ∧
      (∃ l, o'.black_times = o.black_times ++ l) ∧
      o.orchestrator_time ≤ o'.orchestrator_time := by
  induction fuel with
  | zero =>
    intro o evs n r o' n' heq _
    simp only [turn_loop, Option.some.injEq, Prod.mk.injEq] at heq
    obtain ⟨-, rfl, -⟩ := heq
    exact ⟨⟨[], by simp⟩, ⟨[], by simp⟩, le_refl _⟩
  | succ fuel ih =>
    intro o evs n r o' n' heq hlat
    match evs with
    | [] => simp [turn_loop] at heq
    | AgentEvent.err :: evs =>
      rw [turn_loop] at heq
      by_cases hf : fuel = 0
      · rw [if_pos hf] at heq
        simp only [Option.some.injEq, Prod.mk.injEq] at heq
        obtain ⟨-, rfl, -⟩ := heq
        exact ⟨⟨[], by simp⟩, ⟨[], by simp⟩, le_refl _⟩
      · rw [if_neg hf] at heq
        exact ih o evs (n + 1) r o' n' heq
          (fun resp lat el h => hlat resp lat el (List.mem_cons_of_mem _ h))
    | AgentEvent.ok response latency elapsed :: evs =>
      have hle : latency ≤ elapsed :=
        hlat response latency elapsed (List.mem_cons_self _ _)
      have hstep : o.orchestrator_time ≤ o.orchestrator_time + (elapsed - latency) :=
        le_add_of_nonneg_right (sub_nonneg.mpr hle)
      have hlat' : ∀ resp lat el, AgentEvent.ok resp lat el ∈ evs → lat ≤ el :=
        fun resp lat el h => hlat resp lat el (List.mem_cons_of_mem _ h)
      rw [turn_loop.eq_def] at heq
      simp only at heq
      split at heq
      · -- REQUEST_DRAW
        simp only [Option.some.injEq, Prod.mk.injEq] at heq
        obtain ⟨-, rfl, -⟩ := heq
        exact ⟨⟨[], by simp⟩, ⟨[], by simp⟩, hstep⟩
      · split at heq
        · -- RESIGN
          simp only [Option.some.injEq, Prod.mk.injEq] at heq
          obtain ⟨-, rfl, -⟩ := heq
          exact ⟨⟨[], by simp⟩, ⟨[], by simp⟩, hstep⟩
        · split at heq
          · -- DRAW_ACCEPTED
            simp only [Option.some.injEq, Prod.mk.injEq] at heq
            obtain ⟨-, rfl, -⟩ := heq
            exact ⟨⟨[], by simp⟩, ⟨[], by simp⟩, hstep⟩
          · split at heq
            · -- DRAW_REFUSED: the loop continues on the cleared state
              obtain ⟨⟨l1, hw⟩, ⟨l2, hb⟩, horch⟩ :=
                ih _ evs (n + 1) r o' n' heq hlat'
              exact ⟨⟨l1, by simpa using hw⟩, ⟨l2, by simpa using hb⟩,
                le_trans hstep (by simpa using horch)⟩
            · split at heq
              · -- the move candidate is in the legal list
                split at heq
                · -- make_move succeeded: one latency is recorded
                  simp only [Option.some.injEq, Prod.mk.injEq] at heq
                  obtain ⟨-, rfl, -⟩ := heq
                  cases player with
                  | white =>
                    exact ⟨⟨[latency], by simp [record_time]⟩,
                      ⟨[], by simp [record_time]⟩,
                      by simpa [record_time] using hstep⟩
                  | black =>
                    exact ⟨⟨[], by simp [record_time]⟩,
                      ⟨[latency], by simp [record_time]⟩,
                      by simpa [record_time] using hstep⟩
                · -- make_move failed: fall through to the next iteration
                  obtain ⟨⟨l1, hw⟩, ⟨l2, hb⟩, horch⟩ :=
                    ih _ evs (n + 1) r o' n' heq hlat'
                  exact ⟨⟨l1, by simpa using hw⟩, ⟨l2, by simpa using hb⟩,
                    le_trans hstep (by simpa using horch)⟩
              · split at heq
                · -- invalid move on the final attempt
                  simp only [Option.some.injEq, Prod.mk.injEq] at heq
                  obtain ⟨-, rfl, -⟩ := heq
                  exact ⟨⟨[], by simp⟩, ⟨[], by simp⟩, hstep⟩
                · -- invalid move with attempts remaining: one further
                  -- invocation is consumed, then the loop continues
                  match evs, heq with
                  | ev2 :: evs', heq =>
                    obtain ⟨⟨l1, hw⟩, ⟨l2, hb⟩, horch⟩ :=
                      ih _ evs' (n + 2) r o' n' heq
                        (fun resp lat el h =>
                          hlat' resp lat el (List.mem_cons_of_mem _ h))
                    exact ⟨⟨l1, by simpa using hw⟩, ⟨l2, by simpa using hb⟩,
                      le_trans hstep (by simpa using horch)⟩

/-- C5 (amended): across any completed play_turn call, the per-side recorded
latency list is only ever extended (append-only, never removed), and the
orchestrator-overhead scalar — which the code advances by wall-clock
elapsed minus reported latency at every answered attempt — is
non-decreasing provided every reported latency is at most the wall-clock
time elapsed since the turn started; the bound always holds for the
in-repo agents, which time `send_message` inside the turn window, but the
counterexample shows an agent reporting a larger latency drives the scalar
down. -/
theorem C5_times_append_only (e : ChessEngine) (o : OrchState e)
    (evs : List AgentEvent) (r : Option TurnResult) (o' : OrchState e) (n : Nat)
    (hrun : play_turn e o evs = some (r, o', n))
    (hlat : ∀ resp lat el, AgentEvent.ok resp lat el ∈ evs → lat ≤ el) :
    (∃ l, o'.white_times = o.white_times ++ l) ∧
    (∃ l, o'.black_times = o.black_times ++ l) ∧
    o.orchestrator_time ≤ o'.orchestrator_time := by
  unfold play_turn at hrun
  split at hrun
  · simp only [Option.some.injEq, Prod.mk.injEq] at hrun
    obtain ⟨-, rfl, -⟩ := hrun
    exact ⟨⟨[], by simp⟩, ⟨[], by simp⟩, le_refl _⟩
  · split at hrun
    · exact absurd hrun (by simp)
    · exact turn_loop_extends e _ _ _ max_retries o evs 0 r o' n hrun hlat

/-- C5 witness: the append-only and monotonicity conclusions at a concrete
resignation run whose reported latency equals the elapsed wall time. -/
theorem C5_times_witness :
    ∃ (r : Option TurnResult) (o' : OrchState toyEngine) (n : Nat),
      play_turn toyEngine (startOrch toyEngine) [AgentEvent.ok "RESIGN" 1 1] =
        some (r, o', n) ∧
      (∃ l, o'.white_times = (startOrch toyEngine).white_times ++ l) ∧
      (∃ l, o'.black_times = (startOrch toyEngine).black_times ++ l) ∧
      (startOrch toyEngine).orchestrator_time ≤ o'.orchestrator_time := by
  obtain ⟨h1, h2, h3⟩ :=
    C5_times_append_only toyEngine (startOrch toyEngine)
      [AgentEvent.ok "RESIGN" 1 1] _ _ _ rfl
      (by
        intro resp lat el h
        rw [List.mem_singleton] at h
        injection h with hr hl he
        rw [hl, he])
  exact ⟨_, _, _, rfl, h1, h2, h3⟩

/-- C5 counterexample: an agent reporting a latency of 5 time units when
the elapsed wall time is 0 makes the orchestrator-overhead scalar
strictly decrease within a single successful turn, refuting unconditional
monotonicity over every possible agent-reported latency value. -/
theorem C5_overhead_decreases :
    (play_turn toyEngine (startOrch toyEngine) [AgentEvent.ok "RESIGN" 5 0]).map
        (fun r => r.2.1.orchestrator_time) = some (0 + (0 - 5)) ∧
    ((0 : ℚ) + (0 - 5)) < (startOrch toyEngine).orchestrator_time := by
  constructor
  · rfl
  · show ((0 : ℚ) + (0 - 5)) < 0
    norm_num

end ChessLLM
